import Mathlib

/-!
Verification of the URDF commit viewer's structural parser, geometry/origin
extractor, hierarchy builder and line-diff analysis.

The repository contains two near-duplicate parser implementations:
* `src/urdf-3d-viewer.py` (`URDF3DViewer.parse_urdf`, `parse_geometry`,
  `parse_origin`, `get_link_type`) — case-sensitive regex matching;
* the viewer script embedded in `src/urdf-viewer.py` (lines 118-222) —
  same structure, but the visual/shape/origin patterns carry `re.IGNORECASE`
  and the link loop prefers a `<visual>` block;
plus the structural helpers of `src/urdf-viewer.py`:
* `parse_urdf_structure` (line 783), `build_hierarchy` inside
  `create_hierarchical_diagram` (line 833), and `analyze_code_changes`
  (line 1056).

Strings are modelled as `List Char`; Python floats as `ℚ` (the numeric
attributes in scope are plain decimal literals, for which rational values
agree with IEEE comparison results); a raised `ValueError` is modelled as
`Except.error ()`.  Each Python regex in scope is implemented as a dedicated
matcher with Python's leftmost-search, greedy-class and lazy-gap semantics.
-/

namespace UrdfViewer

abbrev Chars := List Char

instance {ε α : Type} [DecidableEq ε] [DecidableEq α] : DecidableEq (Except ε α) := fun x y =>
  match x, y with
  | .ok a, .ok b => decidable_of_iff (a = b) (by simp)
  | .error a, .error b => decidable_of_iff (a = b) (by simp)
  | .ok _, .error _ => isFalse (by simp)
  | .error _, .ok _ => isFalse (by simp)

/-- Python `\d` restricted to ASCII, the alphabet the URDF documents use. -/
def isPyDigit (c : Char) : Bool := '0' ≤ c && c ≤ '9'

/-- Python `\s` (ASCII whitespace). -/
def isPySpace (c : Char) : Bool :=
  c = ' ' || c = '\t' || c = '\n' || c = '\r' || c = '\x0b' || c = '\x0c'

/-- Character class `[\d\.]` used by the cylinder/sphere radius patterns. -/
def classNum (c : Char) : Bool := isPyDigit c || c = '.'

/-- Character class `[\d\.\s]` used by the box size pattern. -/
def classBoxSize (c : Char) : Bool := isPyDigit c || c = '.' || isPySpace c

/-- Character class `[-\d\.\s]` used by the origin xyz/rpy patterns. -/
def classXyz (c : Char) : Bool := c = '-' || isPyDigit c || c = '.' || isPySpace c

/-- Character equality, optionally case-insensitive (`re.IGNORECASE`). -/
def chEq (ci : Bool) (a b : Char) : Bool :=
  if ci then a.toLower = b.toLower else a = b

/-- Consume the literal `lit` at the head of `s`, returning the rest. -/
def stripLit (ci : Bool) : Chars → Chars → Option Chars
  | [], s => some s
  | _ :: _, [] => none
  | l :: ls, c :: cs => if chEq ci l c then stripLit ci ls cs else none

/-- `\s+` followed by a non-space literal: consume a nonempty maximal
whitespace run (backtracking can never help here, so maximal is faithful). -/
def stripSpaces1 (s : Chars) : Option Chars :=
  if (s.takeWhile isPySpace).isEmpty then none else some (s.dropWhile isPySpace)

/-- `(CLASS+)"`: a greedy nonempty run of class characters that must be
followed by a closing double quote.  Greedy-plus-backtracking semantics
collapse to: the maximal run must be nonempty and immediately followed by
`"` (any shorter run ends on a class character, which is never `"`). -/
def quoteRun (p : Char → Bool) (s : Chars) : Option (Chars × Chars) :=
  let run := s.takeWhile p
  match s.dropWhile p with
  | '"' :: rest => if run.isEmpty then none else some (run, rest)
  | _ => none

/-- `re.search`: try the matcher at every start position, leftmost first. -/
def searchOpt {α : Type} (m : Chars → Option α) : Chars → Option α
  | [] => m []
  | c :: cs => (m (c :: cs)) <|> searchOpt m cs

/-- Number of start positions at which the matcher succeeds (used to state
"the fragment contains exactly one shape tag"). -/
def countMatches {α : Type} (m : Chars → Option α) (s : Chars) : Nat :=
  (s.tails.filter fun t => (m t).isSome).length

/-- Lazy gap `.*?CLOSER` under `re.DOTALL`: the content up to the first
position where `closer` matches, together with the remainder after it. -/
def lazyClose (ci : Bool) (closer : Chars) : Chars → Option (Chars × Chars)
  | [] => (stripLit ci closer []).map fun r => ([], r)
  | c :: cs =>
    match stripLit ci closer (c :: cs) with
    | some rest => some ([], rest)
    | none => (lazyClose ci closer cs).map fun p => (c :: p.1, p.2)

/-- Lazy gap `.*?PAT` where `PAT` itself consumes input: find the first
position at which `m` succeeds and return its result. -/
def lazyFind {α : Type} (m : Chars → Option (α × Chars)) : Chars → Option (α × Chars)
  | [] => m []
  | c :: cs => (m (c :: cs)) <|> lazyFind m cs

/-- `pat in s` on character lists (used by the category inference and the
diff line classifier). -/
def containsSub (pat s : Chars) : Bool := s.tails.any fun t => pat.isPrefixOf t

/-- Numeric value of a digit run. -/
def digitsVal (l : Chars) : Nat := l.foldl (fun n c => n * 10 + (c.toNat - '0'.toNat)) 0

/-- Python `float(token)` for tokens drawn from the `[-\d\.\s]` classes
(after `str.split()`, so no interior whitespace): an optional leading `-`,
then digits and at most one dot with at least one digit; anything else
raises `ValueError` (modelled as `none`).  The value is exact in `ℚ`. -/
def pyFloat (s : Chars) : Option ℚ :=
  let (neg, t) : Bool × Chars :=
    match s with
    | '-' :: t => (true, t)
    | t => (false, t)
  if t.all (fun c => isPyDigit c || c = '.') && 1 ≤ (t.filter isPyDigit).length
      && (t.filter (· = '.')).length ≤ 1 then
    let ip := t.takeWhile isPyDigit
    let fp : Chars :=
      match t.dropWhile isPyDigit with
      | '.' :: fs => fs
      | _ => []
    let v : ℚ := mkRat (digitsVal ip * 10 ^ fp.length + digitsVal fp) (10 ^ fp.length)
    some (if neg then -v else v)
  else none

/-- Python `str.split()` (split on whitespace runs, no empty tokens). -/
def pySplitAux : Chars → Chars → List Chars
  | [], acc => if acc.isEmpty then [] else [acc.reverse]
  | c :: cs, acc =>
    if isPySpace c then
      if acc.isEmpty then pySplitAux cs [] else acc.reverse :: pySplitAux cs []
    else pySplitAux cs (c :: acc)

/-- Python `str.split()`. -/
def pySplit (s : Chars) : List Chars := pySplitAux s []

/-- `list(map(float, s.split()))`; `none` models the propagated
`ValueError` when any token fails the conversion. -/
def pyFloats (s : Chars) : Option (List ℚ) := (pySplit s).mapM pyFloat

/-- Geometry descriptor (`{'type': 'box'|'cylinder'|'sphere', ...}`). -/
inductive Geom
  | box (size : List ℚ)
  | cylinder (radius length : ℚ)
  | sphere (radius : ℚ)
deriving DecidableEq, Repr

/-- The fallback `{'type': 'box', 'size': [0.1, 0.1, 0.1]}`. -/
def defaultBox : Geom := .box [mkRat 1 10, mkRat 1 10, mkRat 1 10]

/-- Pose descriptor (`{'xyz': [...], 'rpy': [...]}`). -/
structure Pose where
  xyz : List ℚ
  rpy : List ℚ
deriving DecidableEq, Repr

/-- The fallback `{'xyz': [0,0,0], 'rpy': [0,0,0]}`. -/
def zeroPose : Pose := ⟨[0, 0, 0], [0, 0, 0]⟩

/-- `re.search(r'<box\s+size="([\d\.\s]+)"', content)` at one position. -/
def matchBoxAt (ci : Bool) (s : Chars) : Option Chars := do
  let s ← stripLit ci "<box".data s
  let s ← stripSpaces1 s
  let s ← stripLit ci "size=\"".data s
  let (run, _) ← quoteRun classBoxSize s
  pure run

/-- `re.search(r'<cylinder\s+radius="([\d\.]+)"\s+length="([\d\.]+)"', content)`
at one position; returns the two captures. -/
def matchCylAt (ci : Bool) (s : Chars) : Option (Chars × Chars) := do
  let s ← stripLit ci "<cylinder".data s
  let s ← stripSpaces1 s
  let s ← stripLit ci "radius=\"".data s
  let (r, s) ← quoteRun classNum s
  let s ← stripSpaces1 s
  let s ← stripLit ci "length=\"".data s
  let (l, _) ← quoteRun classNum s
  pure (r, l)

/-- `re.search(r'<sphere\s+radius="([\d\.]+)"', content)` at one position. -/
def matchSphereAt (ci : Bool) (s : Chars) : Option Chars := do
  let s ← stripLit ci "<sphere".data s
  let s ← stripSpaces1 s
  let s ← stripLit ci "radius=\"".data s
  let (r, _) ← quoteRun classNum s
  pure r

/-- `re.search(r'<origin\s+xyz="([-\d\.\s]+)"(?:\s+rpy="([-\d\.\s]+)")?', content)`
at one position; the optional group yields `none` exactly when Python's
group 2 is `None`. -/
def matchOriginAt (ci : Bool) (s : Chars) : Option (Chars × Option Chars) := do
  let s ← stripLit ci "<origin".data s
  let s ← stripSpaces1 s
  let s ← stripLit ci "xyz=\"".data s
  let (xyz, s) ← quoteRun classXyz s
  let rpy : Option Chars := do
    let s ← stripSpaces1 s
    let s ← stripLit ci "rpy=\"".data s
    let (r, _) ← quoteRun classXyz s
    pure r
  pure (xyz, rpy)

/-- Sphere leg of `parse_geometry` (reached when box and cylinder fail). -/
def geomSphereStep (ci : Bool) (s : Chars) : Except Unit Geom :=
  match searchOpt (matchSphereAt ci) s with
  | some cap =>
    match pyFloat cap with
    | some r => .ok (.sphere r)
    | none => .error ()
  | none => .ok defaultBox

/-- Cylinder leg of `parse_geometry` (reached when the box pattern fails or
its size attribute holds fewer than 3 numbers). -/
def geomCylStep (ci : Bool) (s : Chars) : Except Unit Geom :=
  match searchOpt (matchCylAt ci) s with
  | some (rc, lc) =>
    match pyFloat rc, pyFloat lc with
    | some r, some l => .ok (.cylinder r l)
    | _, _ => .error ()
  | none => geomSphereStep ci s

/-- `parse_geometry` (`urdf-3d-viewer.py` lines 89-108 with `ci := false`;
embedded viewer script lines 168-187 with `ci := true`).  `Except.error ()`
models the `ValueError` that `float` raises on a malformed numeric token. -/
def parse_geometry (ci : Bool) (s : Chars) : Except Unit Geom :=
  match searchOpt (matchBoxAt ci) s with
  | some cap =>
    match pyFloats cap with
    | some sizes =>
      if 3 ≤ sizes.length then .ok (.box (sizes.take 3)) else geomCylStep ci s
    | none => .error ()
  | none => geomCylStep ci s

/-- `parse_origin` (`urdf-3d-viewer.py` lines 110-124, case-sensitive): a
short `xyz` is replaced by zeros, but `rpy` is parsed independently and kept. -/
def parse_origin (s : Chars) : Except Unit Pose :=
  match searchOpt (matchOriginAt false) s with
  | none => .ok zeroPose
  | some (xc, rc) =>
    match pyFloats xc with
    | none => .error ()
    | some xs =>
      let xyz : List ℚ := if xs.length < 3 then [0, 0, 0] else xs
      match rc with
      | some rcap =>
        match pyFloats rcap with
        | none => .error ()
        | some rs => .ok ⟨xyz.take 3, rs.take 3⟩
      | none => .ok ⟨xyz.take 3, [0, 0, 0]⟩

/-- `parse_origin` of the embedded viewer script (`urdf-viewer.py` lines
189-205, `re.IGNORECASE`): additionally zeroes a short `rpy`. -/
def parse_origin_emb (s : Chars) : Except Unit Pose :=
  match searchOpt (matchOriginAt true) s with
  | none => .ok zeroPose
  | some (xc, rc) =>
    match pyFloats xc with
    | none => .error ()
    | some xs =>
      let xyz : List ℚ := if xs.length < 3 then [0, 0, 0] else xs
      match rc with
      | some rcap =>
        match pyFloats rcap with
        | none => .error ()
        | some rs =>
          let rpy : List ℚ := if rs.length < 3 then [0, 0, 0] else rs
          .ok ⟨xyz.take 3, rpy.take 3⟩
      | none => .ok ⟨xyz.take 3, [0, 0, 0]⟩

/-- `re.finditer`: scan left to right; after a successful match resume at
the match end, after a failed start position advance by one character.  The
fuel argument (instantiated with `length + 1`) only bounds the recursion;
every matcher used here consumes at least one character per match. -/
def finditerAux {α : Type} (m : Chars → Option (α × Chars)) : Nat → Chars → List α
  | 0, _ => []
  | _ + 1, [] =>
    match m [] with
    | some (a, _) => [a]
    | none => []
  | fuel + 1, c :: cs =>
    match m (c :: cs) with
    | some (a, rest) => a :: finditerAux m fuel rest
    | none => finditerAux m fuel cs

/-- `re.finditer` over a whole document. -/
def finditer {α : Type} (m : Chars → Option (α × Chars)) (s : Chars) : List α :=
  finditerAux m (s.length + 1) s

/-- One position of `r'<link\s+name="([^"]+)"(.*?)</link>'` (`re.DOTALL`):
yields the name capture, the content capture, and the remainder after the
closing tag. -/
def matchLinkAt (ci : Bool) (s : Chars) : Option ((Chars × Chars) × Chars) := do
  let s ← stripLit ci "<link".data s
  let s ← stripSpaces1 s
  let s ← stripLit ci "name=\"".data s
  let (nm, s) ← quoteRun (fun c => c ≠ '"') s
  let (content, rest) ← lazyClose ci "</link>".data s
  pure ((nm, content), rest)

/-- One position of `r'<joint\s+name="([^"]+)"(.*?)</joint>'` (`re.DOTALL`). -/
def matchJointAt (ci : Bool) (s : Chars) : Option ((Chars × Chars) × Chars) := do
  let s ← stripLit ci "<joint".data s
  let s ← stripSpaces1 s
  let s ← stripLit ci "name=\"".data s
  let (nm, s) ← quoteRun (fun c => c ≠ '"') s
  let (content, rest) ← lazyClose ci "</joint>".data s
  pure ((nm, content), rest)

/-- All `(name, body)` link matches of a document. -/
def linkMatches (ci : Bool) (s : Chars) : List (Chars × Chars) :=
  finditer (matchLinkAt ci) s

/-- All `(name, body)` joint matches of a document. -/
def jointMatches (ci : Bool) (s : Chars) : List (Chars × Chars) :=
  finditer (matchJointAt ci) s

/-- One position of `r'<parent\s+link="([^"]+)"'`; returns the capture and
the remainder after its closing quote. -/
def matchParentAt (ci : Bool) (s : Chars) : Option (Chars × Chars) := do
  let s ← stripLit ci "<parent".data s
  let s ← stripSpaces1 s
  let s ← stripLit ci "link=\"".data s
  quoteRun (fun c => c ≠ '"') s

/-- One position of `r'<child\s+link="([^"]+)"'`. -/
def matchChildAt (ci : Bool) (s : Chars) : Option (Chars × Chars) := do
  let s ← stripLit ci "<child".data s
  let s ← stripSpaces1 s
  let s ← stripLit ci "link=\"".data s
  quoteRun (fun c => c ≠ '"') s

/-- `get_link_type` of `urdf-3d-viewer.py` (lines 126-139). -/
def get_link_type (nm : Chars) : Chars :=
  let l := nm.map Char.toLower
  if containsSub "base".data l || containsSub "root".data l then "base".data
  else if containsSub "wheel".data l then "wheel".data
  else if containsSub "camera".data l || containsSub "sensor".data l
      || containsSub "lidar".data l then "sensor".data
  else if containsSub "gripper".data l || containsSub "hand".data l
      || containsSub "finger".data l then "gripper".data
  else if containsSub "joint".data l then "joint".data
  else "link".data

/-- `get_link_type` of the embedded viewer script (lines 207-222): adds
chassis/caster/link checks and a distinct default. -/
def get_link_type_emb (nm : Chars) : Chars :=
  let l := nm.map Char.toLower
  if containsSub "base".data l || containsSub "root".data l
      || containsSub "chassis".data l then "base".data
  else if containsSub "wheel".data l || containsSub "caster".data l then "wheel".data
  else if containsSub "camera".data l || containsSub "sensor".data l
      || containsSub "lidar".data l then "sensor".data
  else if containsSub "gripper".data l || containsSub "hand".data l
      || containsSub "finger".data l then "gripper".data
  else if containsSub "joint".data l then "joint".data
  else if containsSub "link".data l then "link".data
  else "default".data

/-- A parsed link record. -/
structure LinkEnt where
  name : Chars
  geometry : Geom
  origin : Pose
  ltype : Chars
deriving DecidableEq, Repr

/-- A parsed joint record of `urdf-3d-viewer.py` (no name is stored). -/
structure JointEnt where
  parent : Chars
  child : Chars
  origin : Pose
deriving DecidableEq, Repr

/-- One link of `URDF3DViewer.parse_urdf` (geometry, then origin, both over
the whole link body). -/
def parseLinkEntry (nm c : Chars) : Except Unit LinkEnt := do
  let g ← parse_geometry false c
  let o ← parse_origin c
  pure ⟨nm, g, o, get_link_type nm⟩

/-- The joint loop of `URDF3DViewer.parse_urdf`: a joint lacking a parent
or child sub-tag is skipped; otherwise its origin is parsed (which may
raise). -/
def parseJointStep (acc : List JointEnt) (nc : Chars × Chars) : Except Unit (List JointEnt) :=
  match searchOpt (matchParentAt false) nc.2, searchOpt (matchChildAt false) nc.2 with
  | some p, some c => do
    let o ← parse_origin nc.2
    pure (acc ++ [⟨p.1, c.1, o⟩])
  | _, _ => pure acc

/-- `URDF3DViewer.parse_urdf` (`urdf-3d-viewer.py` lines 53-87): all link
matches, then all joint matches; `Except.error ()` models a propagated
`ValueError` from a numeric conversion. -/
def parse_urdf (s : Chars) : Except Unit (List LinkEnt × List JointEnt) :=
  if s.isEmpty then .ok ([], [])
  else do
    let ls ← (linkMatches false s).mapM fun nc => parseLinkEntry nc.1 nc.2
    let js ← (jointMatches false s).foldlM parseJointStep []
    pure (ls, js)

/-- `re.search(r'<visual>(.*?)</visual>', body, re.DOTALL | re.IGNORECASE)`
of the embedded viewer script. -/
def searchVisual (s : Chars) : Option Chars :=
  searchOpt (fun t => do
    let t2 ← stripLit true "<visual>".data t
    let (content, _) ← lazyClose true "</visual>".data t2
    pure content) s

/-- One link of the embedded viewer script's `parse_urdf` (`urdf-viewer.py`
lines 118-149): defaults are overridden from the `<visual>` block only when
the visual origin's translation differs from `[0,0,0]` (for the origin) and
the visual geometry differs from the default box (for the geometry). -/
def parseLinkEntryEmb (nm c : Chars) : Except Unit LinkEnt :=
  match searchVisual c with
  | none => .ok ⟨nm, defaultBox, zeroPose, get_link_type_emb nm⟩
  | some vc => do
    let vo ← parse_origin_emb vc
    let origin := if vo.xyz ≠ [0, 0, 0] then vo else zeroPose
    let vg ← parse_geometry true vc
    let geometry := if vg ≠ defaultBox then vg else defaultBox
    pure ⟨nm, geometry, origin, get_link_type_emb nm⟩

/-- The link loop of the embedded viewer script's `parse_urdf`. -/
def parseLinksEmb (s : Chars) : Except Unit (List LinkEnt) :=
  if s.isEmpty then .ok []
  else (linkMatches false s).mapM fun nc => parseLinkEntryEmb nc.1 nc.2

/-- A joint of `parse_urdf_structure` (name, parent, child). -/
structure SJoint where
  name : Chars
  parent : Chars
  child : Chars
deriving DecidableEq, Repr

/-- Helper for the lazy gaps of the structure-parser joint pattern. -/
def matchParentGap (s : Chars) : Option (Chars × Chars) :=
  lazyFind (matchParentAt false) s

/-- Helper for the lazy gaps of the structure-parser joint pattern. -/
def matchChildGap (s : Chars) : Option (Chars × Chars) :=
  lazyFind (matchChildAt false) s

/-- One position of the `parse_urdf_structure` joint pattern
`r'<joint\s+name="([^"]+)".*?<parent\s+link="([^"]+)".*?<child\s+link="([^"]+)"'`
(`re.DOTALL`): the lazy gaps may run past the end of the joint's own body. -/
def matchSJointAt (s : Chars) : Option (SJoint × Chars) := do
  let t ← stripLit false "<joint".data s
  let t ← stripSpaces1 t
  let t ← stripLit false "name=\"".data t
  let (nm, t) ← quoteRun (fun c => c ≠ '"') t
  let (p, t) ← matchParentGap t
  let (c, t) ← matchChildGap t
  pure (⟨nm, p, c⟩, t)

/-- `parse_urdf_structure` (`urdf-viewer.py` lines 783-814), without the
optional networkx graph: the link-name `findall` and the joint `finditer`. -/
def parse_urdf_structure (s : Chars) : List Chars × List SJoint :=
  if s.isEmpty then ([], [])
  else
    (finditer (fun t => do
        let u ← stripLit false "<link".data t
        let u ← stripSpaces1 u
        let u ← stripLit false "name=\"".data u
        quoteRun (fun c => c ≠ '"') u) s,
     finditer matchSJointAt s)

/-- The hierarchy dictionary of `create_hierarchical_diagram`: an
insertion-ordered association from link name to `(depth, children)`. -/
abbrev Hier := List (Chars × (Nat × List Chars))

/-- Dictionary lookup (each key occurs at most once; the first occurrence
is returned, matching Python dict access). -/
def hFind : Hier → Chars → Option (Nat × List Chars)
  | [], _ => none
  | e :: tl, n => if n = e.1 then some e.2 else hFind tl n

/-- Depth recorded for a node, if any. -/
def hDepth (h : Hier) (n : Chars) : Option Nat := (hFind h n).map (·.1)

/-- `hierarchy[node] = {'depth': depth, 'children': []}` guarded by
`if node not in hierarchy` (so only the first visit writes the depth). -/
def hInsertIfAbsent (h : Hier) (n : Chars) (d : Nat) : Hier :=
  if (hFind h n).isSome then h else h ++ [(n, (d, []))]

/-- `hierarchy[node]['children'].append(child)` (the entry always exists
when this runs). -/
def hAddChild (h : Hier) (n c : Chars) : Hier :=
  h.map fun e => if e.1 = n then (e.1, (e.2.1, e.2.2 ++ [c])) else e

/-- `build_hierarchy` inside `create_hierarchical_diagram`
(`urdf-viewer.py` lines 835-846).  The fuel argument only realises the
recursion; the `depth > 10` guard makes calls with `fuel = 12 - depth`
never exhaust it. -/
def build_hierarchy (joints : List SJoint) : Nat → Chars → Nat → Hier → Hier
  | 0, _, _, h => h
  | fuel + 1, node, depth, h =>
    if depth > 10 then h
    else
      let h := hInsertIfAbsent h node depth
      joints.foldl
        (fun hh j =>
          if j.parent = node then
            build_hierarchy joints fuel j.child (depth + 1) (hAddChild hh node j.child)
          else hh)
        h

/-- The root computation of `create_hierarchical_diagram` (lines 826-831):
links never appearing as a child; if that is empty and links exist, the
first declared link. -/
def hierarchyRoots (links : List Chars) (joints : List SJoint) : List Chars :=
  let allChildren := joints.map (·.child)
  let roots := links.filter fun l => !(allChildren.contains l)
  if roots.isEmpty then
    match links with
    | l :: _ => [l]
    | [] => []
  else roots

/-- The hierarchy produced by `create_hierarchical_diagram` (lines 826-849):
one shared dictionary filled by `build_hierarchy` from every root. -/
def create_hierarchy (links : List Chars) (joints : List SJoint) : Hier :=
  (hierarchyRoots links joints).foldl (fun h r => build_hierarchy joints 12 r 0 h) []

/-- Instrumented twin of `build_hierarchy` recording, in call order, every
`(node, depth)` visit that passes the `depth > 10` guard (i.e. every call
that would touch `hierarchy[node]`).  The recursion mirrors
`build_hierarchy` exactly. -/
def visitTrace (joints : List SJoint) : Nat → Chars → Nat → List (Chars × Nat)
  | 0, _, _ => []
  | fuel + 1, node, depth =>
    if depth > 10 then []
    else
      (node, depth) :: joints.foldl
        (fun acc j =>
          if j.parent = node then acc ++ visitTrace joints fuel j.child (depth + 1)
          else acc)
        []

/-- All visits made while building the hierarchy, in order. -/
def create_visitTrace (links : List Chars) (joints : List SJoint) : List (Chars × Nat) :=
  (hierarchyRoots links joints).foldl (fun acc r => acc ++ visitTrace joints 12 r 0) []

/-- Depth of the last visit of `n` during hierarchy construction. -/
def lastVisitDepth (links : List Chars) (joints : List SJoint) (n : Chars) : Option Nat :=
  (((create_visitTrace links joints).filter fun v => v.1 = n).getLast?).map (·.2)

/-- Python `str.splitlines()` over the ASCII terminators `\r\n`, `\r`,
`\n` (no trailing empty line). -/
def splitlinesAux : Chars → Chars → List Chars
  | [], acc => if acc.isEmpty then [] else [acc.reverse]
  | '\r' :: '\n' :: rest, acc => acc.reverse :: splitlinesAux rest []
  | '\r' :: rest, acc => acc.reverse :: splitlinesAux rest []
  | '\n' :: rest, acc => acc.reverse :: splitlinesAux rest []
  | c :: rest, acc => splitlinesAux rest (c :: acc)

/-- Python `str.splitlines()`. -/
def splitlines (s : Chars) : List Chars := splitlinesAux s []

/-- Tag of one line of the line diff. -/
inductive DTag
  | add
  | del
  | keep
deriving DecidableEq, Repr

/-- Length of a longest common subsequence of two line sequences. -/
def lcsLen {α : Type} [DecidableEq α] : List α → List α → Nat
  | [], _ => 0
  | _ :: _, [] => 0
  | a :: as, b :: bs =>
    if a = b then lcsLen as bs + 1
    else max (lcsLen as (b :: bs)) (lcsLen (a :: as) bs)
termination_by l r => l.length + r.length
decreasing_by all_goals simp +arith [List.length_cons]

/-- Modelled from the spec: `difflib.ndiff` line alignment (§4.4 of the
spec describes it as "a longest-common-subsequence-based alignment,
equivalent to a classic sequence-matcher diff"; `difflib` itself is Python
standard library, outside this repository).  The model emits the classic
LCS edit script: `- ` lines for old-only lines, `+ ` lines for new-only
lines, `  ` lines for common ones, deletions before insertions inside a
replaced block.  The `? ` intra-line hint lines of real `ndiff` are not
modelled (no claim in scope concerns the modified-line count). -/
def ndiffModel {α : Type} [DecidableEq α] : List α → List α → List (DTag × α)
  | [], bs => bs.map fun b => (.add, b)
  | a :: as, [] => (a :: as).map fun a2 => (.del, a2)
  | a :: as, b :: bs =>
    if a = b then (.keep, a) :: ndiffModel as bs
    else if lcsLen (a :: as) bs ≤ lcsLen as (b :: bs) then
      (.del, a) :: ndiffModel as (b :: bs)
    else
      (.add, b) :: ndiffModel (a :: as) bs
termination_by l r => l.length + r.length
decreasing_by all_goals simp +arith [List.length_cons]

/-- The change-by-type counter (`Counter()` keyed by the nine element
kinds; a key is present in the Python counter iff its count is nonzero). -/
structure TypeCounts where
  link : Nat := 0
  joint : Nat := 0
  visual : Nat := 0
  collision : Nat := 0
  origin : Nat := 0
  geometry : Nat := 0
  material : Nat := 0
  nameAttr : Nat := 0
  pose : Nat := 0
deriving DecidableEq, Repr

/-- The empty `Counter()`. -/
def emptyCounts : TypeCounts := {}

/-- Total of all change-by-type counts. -/
def TypeCounts.total (t : TypeCounts) : Nat :=
  t.link + t.joint + t.visual + t.collision + t.origin + t.geometry
    + t.material + t.nameAttr + t.pose

/-- The classification chain of `analyze_code_changes` (lines 1086-1105):
case-insensitive marker search in a fixed precedence order; a line matching
no marker is left unclassified. -/
def classifyLine (t : TypeCounts) (line : Chars) : TypeCounts :=
  let l := line.map Char.toLower
  if containsSub "<link".data l then { t with link := t.link + 1 }
  else if containsSub "<joint".data l then { t with joint := t.joint + 1 }
  else if containsSub "<visual".data l then { t with visual := t.visual + 1 }
  else if containsSub "<collision".data l then { t with collision := t.collision + 1 }
  else if containsSub "<origin".data l then { t with origin := t.origin + 1 }
  else if containsSub "<geometry".data l then { t with geometry := t.geometry + 1 }
  else if containsSub "<material".data l then { t with material := t.material + 1 }
  else if containsSub "name=\"".data l then { t with nameAttr := t.nameAttr + 1 }
  else if containsSub "xyz=\"".data l || containsSub "rpy=\"".data l then
    { t with pose := t.pose + 1 }
  else t

/-- The report built by `analyze_code_changes`.  `modifiedLines` counts the
`? ` hint lines of real `ndiff`, which the diff model does not emit, so it
is always 0 here. -/
structure ChangeReport where
  addedLines : Nat
  removedLines : Nat
  modifiedLines : Nat
  unchangedLines : Nat
  changesByType : TypeCounts
  lineChanges : List (DTag × Chars)
deriving DecidableEq, Repr

/-- `analyze_code_changes` (`urdf-viewer.py` lines 1056-1107).  The
`if not old_content or not new_content: return {}` guard is modelled as
`none` (the degenerate empty dictionary carrying no counts and no
change-by-type mapping).  Otherwise: one pass over the diff counts
added/removed/unchanged lines and collects the added/removed lines in
order, and a second pass classifies only the first 100 collected lines. -/
def analyze_code_changes (old new : Chars) : Option ChangeReport :=
  if old.isEmpty || new.isEmpty then none
  else
    let d := ndiffModel (splitlines old) (splitlines new)
    let lc := d.filter fun tl => tl.1 ≠ DTag.keep
    some
      { addedLines := d.countP fun tl => tl.1 = DTag.add
        removedLines := d.countP fun tl => tl.1 = DTag.del
        modifiedLines := 0
        unchangedLines := d.countP fun tl => tl.1 = DTag.keep
        changesByType := (lc.take 100).foldl (fun t tl => classifyLine t tl.2) emptyCounts
        lineChanges := lc }

example : pyFloat "2.5".data = some (mkRat 5 2) := by decide
example : pyFloat ".".data = none := by decide
example : pyFloat "-0.5".data = some (mkRat (-1) 2) := by decide
example : pyFloats "1 2".data = some [1, 2] := by decide
example : parse_geometry false "<cylinder radius=\"2.5\" length=\"0.5\"/>".data
    = .ok (.cylinder (mkRat 5 2) (mkRat 1 2)) := by decide
example : parse_geometry false "<box size=\".\"/>".data = .error () := by decide
example : parse_origin "<origin xyz=\"1 2\" rpy=\"4 5 6\"/>".data
    = .ok ⟨[0, 0, 0], [4, 5, 6]⟩ := by decide
example : parse_urdf "<link name=\"a\"><box size=\".\"/></link>".data = .error () := by decide
example : (parse_urdf_structure
    "<joint name=\"j1\"><parent link=\"a\"/></joint>\n<joint name=\"j2\"><child link=\"b\"/></joint>".data).2
    = [⟨"j1".data, "a".data, "b".data⟩] := by decide
example : parseLinkEntryEmb "a".data
    "><visual><origin xyz=\"0 0 0\" rpy=\"1 2 3\"/><box size=\"2 2 2\"/></visual>".data
    = .ok ⟨"a".data, .box [2, 2, 2], zeroPose, "default".data⟩ := by decide
example : searchOpt (matchBoxAt true) "<box SIZE=\"1 2 3\"/>".data = some "1 2 3".data := by decide
example : searchOpt (matchOriginAt false) "<origin xyz=\"1 2 3\"rpy=\"7 8 9\"/>".data
    = some ("1 2 3".data, none) := by decide
example : linkMatches false "<link name=\"a\">x<link name=\"b\">y</link>z</link>".data
    = [("a".data, ">x<link name=\"b\">y".data)] := by decide
example : searchOpt (matchBoxAt false) "<box size=\"1 2 3".data = none := by decide
example : searchOpt (matchBoxAt false) "<boxsize=\"1 2 3\"".data = none := by decide
example : searchOpt (matchOriginAt false) "<origin xyz=\"\" rpy=\"1 2 3\"/>".data = none := by decide
example : searchVisual "<visual name=\"v\">inner</visual>".data = none := by decide
example : searchVisual "<VISUAL>inner</VISUAL>".data = some "inner".data := by decide
example : pySplit "  1  2 ".data = ["1".data, "2".data] := by decide
example :
    hDepth (create_hierarchy ["A".data, "B".data, "C".data]
      [⟨"j1".data, "A".data, "B".data⟩, ⟨"j2".data, "B".data, "C".data⟩,
       ⟨"j3".data, "A".data, "C".data⟩]) "C".data = some 2 := by decide
example :
    lastVisitDepth ["A".data, "B".data, "C".data]
      [⟨"j1".data, "A".data, "B".data⟩, ⟨"j2".data, "B".data, "C".data⟩,
       ⟨"j3".data, "A".data, "C".data⟩] "C".data = some 1 := by decide

theorem searchOpt_eq_none_iff {α : Type} (m : Chars → Option α) (s : Chars) :
    searchOpt m s = none ↔ countMatches m s = 0 := by
  induction s with
  | nil =>
    cases h : m [] <;> simp [searchOpt, countMatches, List.tails, h]
  | cons c cs ih =>
    cases h : m (c :: cs) with
    | none =>
      simp only [searchOpt, countMatches, List.tails, List.filter, h, Option.isSome_none,
        Option.orElse, Option.none_orElse]
      simpa [countMatches] using ih
    | some a =>
      simp [searchOpt, countMatches, List.tails, List.filter, h, Option.orElse]

theorem searchOpt_some_count_pos {α : Type} {m : Chars → Option α} {s : Chars} {a : α}
    (h : searchOpt m s = some a) : 1 ≤ countMatches m s := by
  rcases Nat.eq_zero_or_pos (countMatches m s) with h0 | h1
  · rw [(searchOpt_eq_none_iff m s).mpr h0] at h
    cases h
  · exact h1

/-- C1: a fragment containing exactly one shape-tag occurrence which is
well-formed (a box tag whose size attribute holds exactly 3 parseable
numbers, a cylinder tag with parseable radius and length, or a sphere tag
with a parseable radius) extracts to the same shape type carrying exactly
the literal values written, in both the case-sensitive and the
case-insensitive parser variant. -/
theorem geometry_roundtrip_c1 (ci : Bool) (s : Chars)
    (hone : countMatches (matchBoxAt ci) s + countMatches (matchCylAt ci) s
      + countMatches (matchSphereAt ci) s = 1) :
    (∀ cap vs, searchOpt (matchBoxAt ci) s = some cap → pyFloats cap = some vs →
      vs.length = 3 → parse_geometry ci s = .ok (.box vs)) ∧
    (∀ rc lc r l, searchOpt (matchCylAt ci) s = some (rc, lc) → pyFloat rc = some r →
      pyFloat lc = some l → parse_geometry ci s = .ok (.cylinder r l)) ∧
    (∀ cap r, searchOpt (matchSphereAt ci) s = some cap → pyFloat cap = some r →
      parse_geometry ci s = .ok (.sphere r)) := by
  refine ⟨?_, ?_, ?_⟩
  · intro cap vs hs hf hl
    have h3 : 3 ≤ vs.length := by omega
    have ht : vs.take 3 = vs := by rw [← hl]; exact vs.take_length
    simp [parse_geometry, hs, hf, h3, ht]
  · intro rc lc r l hs hr hl
    have hb : searchOpt (matchBoxAt ci) s = none := by
      have hc := searchOpt_some_count_pos hs
      exact (searchOpt_eq_none_iff _ s).mpr (by omega)
    simp [parse_geometry, hb, geomCylStep, hs, hr, hl]
  · intro cap r hs hr
    have hsp := searchOpt_some_count_pos hs
    have hb : searchOpt (matchBoxAt ci) s = none :=
      (searchOpt_eq_none_iff _ s).mpr (by omega)
    have hcy : searchOpt (matchCylAt ci) s = none :=
      (searchOpt_eq_none_iff _ s).mpr (by omega)
    simp [parse_geometry, hb, geomCylStep, hcy, geomSphereStep, hs, hr]

theorem geometry_roundtrip_c1_witness :
    countMatches (matchBoxAt false) "<cylinder radius=\"2.5\" length=\"0.5\"/>".data
        + countMatches (matchCylAt false) "<cylinder radius=\"2.5\" length=\"0.5\"/>".data
        + countMatches (matchSphereAt false) "<cylinder radius=\"2.5\" length=\"0.5\"/>".data = 1 ∧
    parse_geometry false "<cylinder radius=\"2.5\" length=\"0.5\"/>".data
      = .ok (.cylinder (mkRat 5 2) (mkRat 1 2)) :=
  ⟨by decide,
   (geometry_roundtrip_c1 false "<cylinder radius=\"2.5\" length=\"0.5\"/>".data
      (by decide)).2.1 "2.5".data "0.5".data (mkRat 5 2) (mkRat 1 2)
      (by decide) (by decide) (by decide)⟩

/-- C2: the structural parser is not total.  A size token matching the box
pattern's character class but failing numeric conversion (a lone `.`)
makes `float` raise `ValueError`, which propagates out of
`parse_geometry` and `parse_urdf` (modelled as `Except.error ()`) instead
of being replaced by the documented default. -/
theorem parser_not_total_c2 :
    parse_urdf "<link name=\"a\"><box size=\".\"/></link>".data = .error ()
      ∧ parse_geometry false "<box size=\".\"/>".data = .error () :=
  ⟨by decide, by decide⟩

/-- C3 (as stated) is false: a short `xyz` only zeroes the translation;
the `rpy` attribute in the same origin tag is still parsed and returned. -/
theorem origin_short_xyz_c3_cex :
    parse_origin "<origin xyz=\"1 2\" rpy=\"4 5 6\"/>".data
        = .ok ⟨[0, 0, 0], [4, 5, 6]⟩ ∧
    parse_origin "<origin xyz=\"1 2\" rpy=\"4 5 6\"/>".data ≠ .ok zeroPose :=
  ⟨by decide, by decide⟩

/-- C3 (amended): when the origin tag's `xyz` attribute parses to fewer
than 3 numbers, pose extraction returns a zero translation, but the
rotation is the parsed value of the `rpy` attribute (truncated to 3
numbers), not zero — in both parser variants (the embedded variant
additionally zeroes an `rpy` shorter than 3, hence its extra hypothesis). -/
theorem origin_short_xyz_c3 (s : Chars) (xc rcap : Chars) (xs rs : List ℚ)
    (hx3 : xs.length < 3) :
    (searchOpt (matchOriginAt false) s = some (xc, some rcap) → pyFloats xc = some xs →
      pyFloats rcap = some rs → parse_origin s = .ok ⟨[0, 0, 0], rs.take 3⟩) ∧
    (searchOpt (matchOriginAt true) s = some (xc, some rcap) → pyFloats xc = some xs →
      pyFloats rcap = some rs → 3 ≤ rs.length →
      parse_origin_emb s = .ok ⟨[0, 0, 0], rs.take 3⟩) := by
  constructor
  · intro h1 h2 h3
    simp [parse_origin, h1, h2, h3, hx3]
  · intro h1 h2 h3 hr3
    have : ¬ rs.length < 3 := by omega
    simp [parse_origin_emb, h1, h2, h3, hx3, this]

theorem origin_short_xyz_c3_witness :
    parse_origin "<origin xyz=\"1 2\" rpy=\"4 5 6\"/>".data
        = .ok ⟨[0, 0, 0], List.take 3 [4, 5, 6]⟩ ∧
    parse_origin_emb "<origin xyz=\"1 2\" rpy=\"4 5 6\"/>".data
        = .ok ⟨[0, 0, 0], List.take 3 [4, 5, 6]⟩ :=
  ⟨(origin_short_xyz_c3 "<origin xyz=\"1 2\" rpy=\"4 5 6\"/>".data
      "1 2".data "4 5 6".data [1, 2] [4, 5, 6] (by decide)).1
      (by decide) (by decide) (by decide),
   (origin_short_xyz_c3 "<origin xyz=\"1 2\" rpy=\"4 5 6\"/>".data
      "1 2".data "4 5 6".data [1, 2] [4, 5, 6] (by decide)).2
      (by decide) (by decide) (by decide) (by decide)⟩

/-- C4 (as stated) is false: a box size attribute with fewer than 3
numbers is a fall-through, not a forced default — a cylinder tag present
in the same fragment is returned instead of the default box. -/
theorem box_short_size_c4_cex :
    searchOpt (matchBoxAt false) "<box size=\"1 2\"/><cylinder radius=\"3\" length=\"4\"/>".data
        = some "1 2".data ∧
    pyFloats "1 2".data = some [1, 2] ∧
    parse_geometry false "<box size=\"1 2\"/><cylinder radius=\"3\" length=\"4\"/>".data
        = .ok (.cylinder 3 4) ∧
    parse_geometry false "<box size=\"1 2\"/><cylinder radius=\"3\" length=\"4\"/>".data
        ≠ .ok defaultBox := by
  refine ⟨by decide, by decide, by decide, by decide⟩

/-- C4 (amended): a box size attribute with fewer than 3 numbers is
treated as no-match; only when the cylinder and sphere patterns also fail
does extraction return the default box `{0.1, 0.1, 0.1}`, regardless of
the numbers present in the size attribute. -/
theorem box_short_size_c4 (ci : Bool) (s cap : Chars) (vs : List ℚ)
    (h1 : searchOpt (matchBoxAt ci) s = some cap)
    (h2 : pyFloats cap = some vs) (h3 : vs.length < 3)
    (h4 : searchOpt (matchCylAt ci) s = none)
    (h5 : searchOpt (matchSphereAt ci) s = none) :
    parse_geometry ci s = .ok defaultBox := by
  have hn : ¬ 3 ≤ vs.length := by omega
  simp [parse_geometry, h1, h2, hn, geomCylStep, h4, geomSphereStep, h5]

theorem box_short_size_c4_witness :
    parse_geometry false "<box size=\"1 2\"/>".data = .ok defaultBox :=
  box_short_size_c4 false "<box size=\"1 2\"/>".data "1 2".data [1, 2]
    (by decide) (by decide) (by decide) (by decide) (by decide)

/-- C10: in the embedded viewer script, a visual origin whose translation
parses to `[0,0,0]` is discarded no matter what its `rpy` says: the
parsed link keeps the all-zero default pose. -/
theorem visual_origin_rotation_only_c10 (s nm c vc : Chars) (po : Pose) (l : LinkEnt)
    (_hmem : (nm, c) ∈ linkMatches false s)
    (hv : searchVisual c = some vc)
    (ho : parse_origin_emb vc = .ok po)
    (hxyz : po.xyz = [0, 0, 0]) (_hrpy : po.rpy ≠ [0, 0, 0])
    (hl : parseLinkEntryEmb nm c = .ok l) :
    l.origin = zeroPose := by
  unfold parseLinkEntryEmb at hl
  rw [hv] at hl
  simp only [ho, Bind.bind, Except.bind, pure, Except.pure] at hl
  cases hg : parse_geometry true vc with
  | error e =>
    rw [hg] at hl
    simp [Bind.bind, Except.bind] at hl
  | ok g =>
    rw [hg] at hl
    simp only [Bind.bind, Except.bind, pure, Except.pure, Except.ok.injEq] at hl
    rw [← hl]
    simp [hxyz]

theorem visual_origin_rotation_only_c10_witness :
    (("a".data, "><visual><origin xyz=\"0 0 0\" rpy=\"1 2 3\"/></visual>".data) ∈
      linkMatches false
        "<link name=\"a\"><visual><origin xyz=\"0 0 0\" rpy=\"1 2 3\"/></visual></link>".data) ∧
    (LinkEnt.origin ⟨"a".data, defaultBox, zeroPose, "default".data⟩ = zeroPose) :=
  ⟨by decide,
   visual_origin_rotation_only_c10
     "<link name=\"a\"><visual><origin xyz=\"0 0 0\" rpy=\"1 2 3\"/></visual></link>".data
     "a".data "><visual><origin xyz=\"0 0 0\" rpy=\"1 2 3\"/></visual>".data
     "<origin xyz=\"0 0 0\" rpy=\"1 2 3\"/>".data
     ⟨[0, 0, 0], [1, 2, 3]⟩ ⟨"a".data, defaultBox, zeroPose, "default".data⟩
     (by decide) (by decide) (by decide) (by decide) (by decide) (by decide)⟩

theorem foldlM_parseJointStep_length :
    ∀ (l : List (Chars × Chars)) (acc js : List JointEnt),
      l.foldlM parseJointStep acc = .ok js →
      js.length = acc.length + (l.filter fun nc =>
        !((searchOpt (matchParentAt false) nc.2).isNone
          || (searchOpt (matchChildAt false) nc.2).isNone)).length := by
  intro l
  induction l with
  | nil =>
    intro acc js h
    simp only [List.foldlM_nil, pure, Except.pure, Except.ok.injEq] at h
    subst h
    simp
  | cons nc tl ih =>
    intro acc js h
    simp only [List.foldlM_cons] at h
    cases hp : searchOpt (matchParentAt false) nc.2 with
    | none =>
      simp only [parseJointStep, hp, Bind.bind, Except.bind, pure, Except.pure] at h
      have := ih acc js h
      simp [List.filter, hp, this]
    | some p =>
      cases hc : searchOpt (matchChildAt false) nc.2 with
      | none =>
        simp only [parseJointStep, hp, hc, Bind.bind, Except.bind, pure, Except.pure] at h
        have := ih acc js h
        simp [List.filter, hp, hc, this]
      | some cd =>
        cases ho : parse_origin nc.2 with
        | error e =>
          simp [parseJointStep, hp, hc, ho, Bind.bind, Except.bind] at h
        | ok o =>
          simp only [parseJointStep, hp, hc, ho, Bind.bind, Except.bind, pure,
            Except.pure] at h
          have := ih (acc ++ [⟨p.1, cd.1, o⟩]) js h
          simp only [List.length_append, List.length_cons, List.length_nil] at this
          simp only [List.filter, hp, hc, Option.isNone_some, Bool.or_self, Bool.not_false,
            List.length_cons]
          omega

/-- C8 (amended): in `URDF3DViewer.parse_urdf`, a joint declaration whose
body lacks a parent or child sub-tag is excluded, and the parsed joint
count is the number of joint declarations minus the number of such
defective declarations.  (As stated over both parsers the claim is false:
see the counterexample on `parse_urdf_structure`, whose lazy joint pattern
merges adjacent defective declarations instead of dropping each one.) -/
theorem joint_exclusion_c8 (s : Chars) (ls : List LinkEnt) (js : List JointEnt)
    (h : parse_urdf s = .ok (ls, js)) :
    js.length = (jointMatches false s).length -
      ((jointMatches false s).filter fun nc =>
        (searchOpt (matchParentAt false) nc.2).isNone
          || (searchOpt (matchChildAt false) nc.2).isNone).length := by
  unfold parse_urdf at h
  by_cases he : s.isEmpty
  · rw [if_pos he] at h
    simp only [Except.ok.injEq, Prod.mk.injEq] at h
    have hs : s = [] := by
      cases s with
      | nil => rfl
      | cons a l => simp [List.isEmpty] at he
    subst hs
    rw [← h.2]
    simp [jointMatches, finditer, finditerAux, matchJointAt, stripLit]
  · rw [if_neg he] at h
    cases hls : (linkMatches false s).mapM fun nc => parseLinkEntry nc.1 nc.2 with
    | error e =>
      rw [hls] at h
      simp [Bind.bind, Except.bind] at h
    | ok ls0 =>
      rw [hls] at h
      simp only [Bind.bind, Except.bind] at h
      cases hjs : (jointMatches false s).foldlM parseJointStep [] with
      | error e =>
        rw [hjs] at h
        simp at h
      | ok js0 =>
        rw [hjs] at h
        simp only [pure, Except.pure, Except.ok.injEq, Prod.mk.injEq] at h
        have hlen := foldlM_parseJointStep_length (jointMatches false s) [] js0 hjs
        have hfle : ∀ (l : List (Chars × Chars)) (p : Chars × Chars → Bool),
            (l.filter fun x => !(p x)).length = l.length - (l.filter p).length := by
          intro l p
          induction l with
          | nil => simp
          | cons x xs ihx =>
            by_cases hx : p x <;>
              simp [List.filter, hx, ihx, Nat.succ_sub, List.length_filter_le]
        rw [← h.2, hlen]
        simp only [List.length_nil, Nat.zero_add]
        exact hfle (jointMatches false s) fun nc =>
          (searchOpt (matchParentAt false) nc.2).isNone
            || (searchOpt (matchChildAt false) nc.2).isNone

/-- C8 (as stated) is false on `parse_urdf_structure`: of two adjacent
joint declarations that are both defective (the first lacking a child
sub-tag, the second lacking a parent sub-tag), the lazy joint pattern
builds one merged match instead of excluding both, so the parsed count is
1 rather than declarations minus defectives = 0. -/
theorem joint_exclusion_c8_cex :
    (parse_urdf_structure
      "<joint name=\"j1\"><parent link=\"a\"/></joint><joint name=\"j2\"><child link=\"b\"/></joint>".data).2.length
      = 1 ∧
    (jointMatches false
      "<joint name=\"j1\"><parent link=\"a\"/></joint><joint name=\"j2\"><child link=\"b\"/></joint>".data).length
      = 2 ∧
    ((jointMatches false
      "<joint name=\"j1\"><parent link=\"a\"/></joint><joint name=\"j2\"><child link=\"b\"/></joint>".data).filter
        fun nc => (searchOpt (matchParentAt false) nc.2).isNone
          || (searchOpt (matchChildAt false) nc.2).isNone).length = 2 ∧
    (1 : Nat) ≠ 2 - 2 :=
  ⟨by decide, by decide, by decide, by decide⟩

theorem joint_exclusion_c8_witness :
    parse_urdf
      "<joint name=\"j1\"><parent link=\"a\"/><child link=\"b\"/></joint><joint name=\"j2\"><parent link=\"a\"/></joint>".data
      = .ok ([], [⟨"a".data, "b".data, zeroPose⟩]) ∧
    ([(⟨"a".data, "b".data, zeroPose⟩ : JointEnt)]).length =
      (jointMatches false
        "<joint name=\"j1\"><parent link=\"a\"/><child link=\"b\"/></joint><joint name=\"j2\"><parent link=\"a\"/></joint>".data).length -
      ((jointMatches false
        "<joint name=\"j1\"><parent link=\"a\"/><child link=\"b\"/></joint><joint name=\"j2\"><parent link=\"a\"/></joint>".data).filter
          fun nc => (searchOpt (matchParentAt false) nc.2).isNone
            || (searchOpt (matchChildAt false) nc.2).isNone).length :=
  ⟨by decide,
   joint_exclusion_c8
     "<joint name=\"j1\"><parent link=\"a\"/><child link=\"b\"/></joint><joint name=\"j2\"><parent link=\"a\"/></joint>".data
     [] [⟨"a".data, "b".data, zeroPose⟩] (by decide)⟩

theorem hDepth_hAddChild (h : Hier) (m c n : Chars) :
    hDepth (hAddChild h m c) n = hDepth h n := by
  induction h with
  | nil => rfl
  | cons e tl ih =>
    rcases e with ⟨k, dv, cs⟩
    unfold hDepth at ih ⊢
    by_cases hk : k = m
    · subst hk
      by_cases hn : n = k
      · subst hn
        simp [hAddChild, hFind]
      · simpa [hAddChild, hFind, hn] using ih
    · by_cases hn : n = k
      · subst hn
        simp [hAddChild, hFind, hk]
      · simpa [hAddChild, hFind, hk, hn] using ih

theorem hFind_append_of_some {h : Hier} {n : Chars} {v : Nat × List Chars} (l : Hier)
    (hv : hFind h n = some v) : hFind (h ++ l) n = some v := by
  induction h with
  | nil => cases hv
  | cons e tl ih =>
    by_cases hn : n = e.1
    · simpa [hFind, hn] using hv
    · rw [hFind, if_neg hn] at hv
      simpa [hFind, hn] using ih hv

theorem hDepth_hInsertIfAbsent {h : Hier} {n : Chars} {d : Nat} (m : Chars) (d2 : Nat)
    (hd : hDepth h n = some d) : hDepth (hInsertIfAbsent h m d2) n = some d := by
  unfold hInsertIfAbsent
  split
  · exact hd
  · unfold hDepth at hd ⊢
    cases hl : hFind h n with
    | none => rw [hl] at hd; cases hd
    | some v =>
      rw [hFind_append_of_some _ hl]
      rw [hl] at hd
      exact hd

/-- C7 (amended): during hierarchy construction, the depth recorded for a
link is the depth of its first visit — once a link holds an entry, later
visits (from cyclic or duplicate joint edges) never change its recorded
depth.  (As stated — last visit wins — the claim is false: see the
counterexample.) -/
theorem hierarchy_first_visit_c7 (joints : List SJoint) (fuel : Nat) (node : Chars)
    (depth : Nat) (h : Hier) (n : Chars) (d : Nat) (hd : hDepth h n = some d) :
    hDepth (build_hierarchy joints fuel node depth h) n = some d := by
  induction fuel generalizing node depth h with
  | zero => simpa [build_hierarchy] using hd
  | succ f ih =>
    rw [build_hierarchy]
    split
    · exact hd
    · have base : hDepth (hInsertIfAbsent h node depth) n = some d :=
        hDepth_hInsertIfAbsent node depth hd
      have fold : ∀ (js : List SJoint) (h2 : Hier), hDepth h2 n = some d →
          hDepth (js.foldl
            (fun hh j =>
              if j.parent = node then
                build_hierarchy joints f j.child (depth + 1) (hAddChild hh node j.child)
              else hh)
            h2) n = some d := by
        intro js
        induction js with
        | nil => intro h2 hh; simpa using hh
        | cons j tl ihl =>
          intro h2 hh
          simp only [List.foldl_cons]
          apply ihl
          by_cases hj : j.parent = node
          · rw [if_pos hj]
            exact ih j.child (depth + 1) _ (by rw [hDepth_hAddChild]; exact hh)
          · rw [if_neg hj]
            exact hh
      exact fold joints _ base

/-- C7 (as stated) is false: with joints A→B, B→C, A→C (in that order),
link C is visited at depth 2 first and at depth 1 last, yet the recorded
depth is 2 — the first visit wins, not the last. -/
theorem hierarchy_first_visit_c7_cex :
    hDepth (create_hierarchy ["A".data, "B".data, "C".data]
        [⟨"j1".data, "A".data, "B".data⟩, ⟨"j2".data, "B".data, "C".data⟩,
         ⟨"j3".data, "A".data, "C".data⟩]) "C".data = some 2 ∧
    lastVisitDepth ["A".data, "B".data, "C".data]
        [⟨"j1".data, "A".data, "B".data⟩, ⟨"j2".data, "B".data, "C".data⟩,
         ⟨"j3".data, "A".data, "C".data⟩] "C".data = some 1 ∧
    (2 : Nat) ≠ 1 :=
  ⟨by decide, by decide, by decide⟩

theorem hierarchy_first_visit_c7_witness :
    hDepth (build_hierarchy
        [⟨"j1".data, "A".data, "B".data⟩, ⟨"j2".data, "B".data, "C".data⟩,
         ⟨"j3".data, "A".data, "C".data⟩] 12 "A".data 0 [("C".data, (2, []))])
      "C".data = some 2 :=
  hierarchy_first_visit_c7
    [⟨"j1".data, "A".data, "B".data⟩, ⟨"j2".data, "B".data, "C".data⟩,
     ⟨"j3".data, "A".data, "C".data⟩] 12 "A".data 0 [("C".data, (2, []))]
    "C".data 2 (by decide)

theorem lcsLen_le_left {α : Type} [DecidableEq α] (a b : List α) : lcsLen a b ≤ a.length := by
  induction a, b using lcsLen.induct with
  | case1 x => simp [lcsLen]
  | case2 h t => simp [lcsLen]
  | case3 as b bs ih => simp [lcsLen]; omega
  | case4 a as b bs h ih1 ih2 =>
    simp only [lcsLen, if_neg h, List.length_cons] at ih1 ih2 ⊢
    refine Nat.max_le.mpr ⟨?_, ?_⟩ <;> omega

theorem lcsLen_le_right {α : Type} [DecidableEq α] (a b : List α) : lcsLen a b ≤ b.length := by
  induction a, b using lcsLen.induct with
  | case1 x => simp [lcsLen]
  | case2 h t => simp [lcsLen]
  | case3 as b bs ih => simp [lcsLen]; omega
  | case4 a as b bs h ih1 ih2 =>
    simp only [lcsLen, if_neg h, List.length_cons] at ih1 ih2 ⊢
    refine Nat.max_le.mpr ⟨?_, ?_⟩ <;> omega

theorem lcsLen_symm {α : Type} [DecidableEq α] (a b : List α) : lcsLen a b = lcsLen b a := by
  induction a, b using lcsLen.induct with
  | case1 x => cases x <;> simp [lcsLen]
  | case2 h t => simp [lcsLen]
  | case3 as b bs ih => simp [lcsLen, ih]
  | case4 a as b bs h ih1 ih2 =>
    have h2 : ¬ b = a := fun e => h e.symm
    simp only [lcsLen, if_neg h, if_neg h2]
    rw [ih1, ih2, Nat.max_comm]

theorem countP_map_pair {α : Type} (l : List α) (t t2 : DTag) :
    ((l.map fun x => (t, x)).countP fun tl => tl.1 = t2)
      = if t = t2 then l.length else 0 := by
  induction l with
  | nil => simp
  | cons a tl ih => by_cases h : t = t2 <;> simp [List.countP_cons, ih, h]

theorem ndiff_countAdd {α : Type} [DecidableEq α] (a b : List α) :
    ((ndiffModel a b).countP fun tl => tl.1 = DTag.add) = b.length - lcsLen a b := by
  induction a, b using ndiffModel.induct with
  | case1 x => simp [ndiffModel, lcsLen, countP_map_pair]
  | case2 h t => simp [ndiffModel, lcsLen, countP_map_pair]
  | case3 as b bs ih =>
    simp only [ndiffModel, lcsLen, if_pos rfl, List.countP_cons]
    simp [ih]
  | case4 a as b bs h hle ih =>
    simp only [ndiffModel, lcsLen, if_neg h, if_pos hle, List.countP_cons]
    rw [Nat.max_eq_left hle]
    simp [ih]
  | case5 a as b bs h hle ih =>
    have hlt := Nat.lt_of_not_le hle
    have hub := lcsLen_le_right (a :: as) bs
    simp only [ndiffModel, lcsLen, if_neg h, if_neg hle, List.countP_cons]
    rw [Nat.max_eq_right (Nat.le_of_lt hlt)]
    simp [ih]
    omega

theorem ndiff_countDel {α : Type} [DecidableEq α] (a b : List α) :
    ((ndiffModel a b).countP fun tl => tl.1 = DTag.del) = a.length - lcsLen a b := by
  induction a, b using ndiffModel.induct with
  | case1 x => simp [ndiffModel, lcsLen, countP_map_pair]
  | case2 h t => simp [ndiffModel, lcsLen, countP_map_pair]
  | case3 as b bs ih =>
    simp only [ndiffModel, lcsLen, if_pos rfl, List.countP_cons]
    simp [ih]
  | case4 a as b bs h hle ih =>
    have hub := lcsLen_le_left as (b :: bs)
    simp only [ndiffModel, lcsLen, if_neg h, if_pos hle, List.countP_cons]
    rw [Nat.max_eq_left hle]
    simp [ih]
    omega
  | case5 a as b bs h hle ih =>
    have hlt := Nat.lt_of_not_le hle
    simp only [ndiffModel, lcsLen, if_neg h, if_neg hle, List.countP_cons]
    rw [Nat.max_eq_right (Nat.le_of_lt hlt)]
    simp [ih]

theorem ndiff_add_del_symm {α : Type} [DecidableEq α] (a b : List α) :
    ((ndiffModel a b).countP fun tl => tl.1 = DTag.add)
      = ((ndiffModel b a).countP fun tl => tl.1 = DTag.del) := by
  rw [ndiff_countAdd, ndiff_countDel, lcsLen_symm]

theorem ndiff_del_add_symm {α : Type} [DecidableEq α] (a b : List α) :
    ((ndiffModel a b).countP fun tl => tl.1 = DTag.del)
      = ((ndiffModel b a).countP fun tl => tl.1 = DTag.add) := by
  rw [ndiff_countDel, ndiff_countAdd, lcsLen_symm]

/-- C5: the added-line count of the change analysis of (old, new) equals
the removed-line count of the change analysis of (new, old), and vice
versa; when either text is empty, both analyses return the no-report
result.  (The diff alignment is the spec-modelled LCS diff.) -/
theorem diff_symmetry_c5 (old new : Chars) :
    ((analyze_code_changes old new).map fun r => r.addedLines)
      = ((analyze_code_changes new old).map fun r => r.removedLines) ∧
    ((analyze_code_changes old new).map fun r => r.removedLines)
      = ((analyze_code_changes new old).map fun r => r.addedLines) := by
  unfold analyze_code_changes
  by_cases h1 : old.isEmpty
  · simp [h1]
  · by_cases h2 : new.isEmpty
    · simp [h2]
    · rw [if_neg (by simp [h1, h2]), if_neg (by simp [h1, h2])]
      refine ⟨?_, ?_⟩
      · simp only [Option.map_some']
        exact congrArg some (ndiff_add_del_symm (splitlines old) (splitlines new))
      · simp only [Option.map_some']
        exact congrArg some (ndiff_del_add_symm (splitlines old) (splitlines new))

theorem ndiffModel_self {α : Type} [DecidableEq α] (l : List α) :
    ndiffModel l l = l.map fun x => (DTag.keep, x) := by
  induction l with
  | nil => simp [ndiffModel]
  | cons a t ih => simp [ndiffModel, ih]

theorem filter_keep_map {α : Type} (l : List α) :
    ((l.map fun x => ((DTag.keep : DTag), x)).filter fun tl => tl.1 ≠ DTag.keep) = [] := by
  induction l <;> simp_all [List.filter]

/-- C6 (as stated) is false at the empty text: `analyze_code_changes("", "")`
returns the empty dictionary `{}` (modelled as `none`), which carries no
added/removed counts and no change-by-type mapping at all. -/
theorem diff_idempotent_c6_cex : analyze_code_changes [] [] = none := rfl

/-- C6 (amended): for every non-empty text t, the change analysis of
(t, t) yields zero added lines, zero removed lines, an empty
change-by-type mapping — and no line-change entries, every line counted
unchanged; for the empty text the analysis returns the no-report
dictionary instead.  (The diff alignment is the spec-modelled LCS diff.) -/
theorem diff_idempotent_c6 (t : Chars) (ht : ¬ t.isEmpty) :
    analyze_code_changes t t = some
      { addedLines := 0, removedLines := 0, modifiedLines := 0,
        unchangedLines := (splitlines t).length,
        changesByType := emptyCounts, lineChanges := [] } := by
  unfold analyze_code_changes
  rw [if_neg (by simp [ht])]
  simp only [ndiffModel_self, filter_keep_map, countP_map_pair]
  simp

theorem diff_idempotent_c6_witness :
    analyze_code_changes "<robot/>".data "<robot/>".data = some
      { addedLines := 0, removedLines := 0, modifiedLines := 0,
        unchangedLines := (splitlines "<robot/>".data).length,
        changesByType := emptyCounts, lineChanges := [] } :=
  diff_idempotent_c6 "<robot/>".data (by decide)

theorem classifyLine_total_le (t : TypeCounts) (line : Chars) :
    (classifyLine t line).total ≤ t.total + 1 := by
  simp only [classifyLine]
  split_ifs <;> simp [TypeCounts.total] <;> omega

theorem foldl_classify_total_le (l : List (DTag × Chars)) (t : TypeCounts) :
    (l.foldl (fun tc tl => classifyLine tc tl.2) t).total ≤ t.total + l.length := by
  induction l generalizing t with
  | nil => simp
  | cons x xs ih =>
    simp only [List.foldl_cons, List.length_cons]
    have h1 := ih (classifyLine t x.2)
    have h2 := classifyLine_total_le t x.2
    omega

theorem countAdd_add_countDel {α : Type} (d : List (DTag × α)) :
    (d.countP fun tl => tl.1 = DTag.add) + (d.countP fun tl => tl.1 = DTag.del)
      = (d.filter fun tl => tl.1 ≠ DTag.keep).length := by
  induction d with
  | nil => simp
  | cons x xs ih =>
    rcases x with ⟨t, v⟩
    cases t <;> simp_all [List.countP_cons, List.filter] <;> omega

/-- C9: only the first 100 added/removed lines are classified (the
change-by-type total never exceeds 100 and equals the classification of
the first 100 collected lines), while the added/removed totals count the
whole diff — their sum is the full length of the collected added/removed
line list, uncapped.  (The diff alignment is the spec-modelled LCS diff.) -/
theorem diff_classify_cap_c9 (old new : Chars)
    (h1 : ¬ old.isEmpty) (h2 : ¬ new.isEmpty) :
    ∃ r, analyze_code_changes old new = some r ∧
      r.changesByType.total ≤ 100 ∧
      r.changesByType
        = (r.lineChanges.take 100).foldl (fun tc tl => classifyLine tc tl.2) emptyCounts ∧
      r.addedLines
        = ((ndiffModel (splitlines old) (splitlines new)).countP fun tl => tl.1 = DTag.add) ∧
      r.removedLines
        = ((ndiffModel (splitlines old) (splitlines new)).countP fun tl => tl.1 = DTag.del) ∧
      r.addedLines + r.removedLines = r.lineChanges.length := by
  unfold analyze_code_changes
  rw [if_neg (by simp [h1, h2])]
  refine ⟨_, rfl, ?_, rfl, rfl, rfl, ?_⟩
  · dsimp only
    have hb := foldl_classify_total_le
      (((ndiffModel (splitlines old) (splitlines new)).filter
        fun tl => tl.1 ≠ DTag.keep).take 100) emptyCounts
    have hl : (((ndiffModel (splitlines old) (splitlines new)).filter
        fun tl => tl.1 ≠ DTag.keep).take 100).length ≤ 100 :=
      List.length_take_le 100 _
    have he : emptyCounts.total = 0 := rfl
    omega
  · dsimp only
    exact countAdd_add_countDel _

theorem diff_classify_cap_c9_witness :
    ∃ r, analyze_code_changes "<link/>\n<box/>".data "<joint/>".data = some r ∧
      r.changesByType.total ≤ 100 ∧
      r.changesByType
        = (r.lineChanges.take 100).foldl (fun tc tl => classifyLine tc tl.2) emptyCounts ∧
      r.addedLines
        = ((ndiffModel (splitlines "<link/>\n<box/>".data)
            (splitlines "<joint/>".data)).countP fun tl => tl.1 = DTag.add) ∧
      r.removedLines
        = ((ndiffModel (splitlines "<link/>\n<box/>".data)
            (splitlines "<joint/>".data)).countP fun tl => tl.1 = DTag.del) ∧
      r.addedLines + r.removedLines = r.lineChanges.length :=
  diff_classify_cap_c9 "<link/>\n<box/>".data "<joint/>".data (by decide) (by decide)

end UrdfViewer
